import Mathlib

/-!
Verification of the AI Sales Forecaster forecasting pipeline.

This file is a shallow embedding, in Lean 4, of the parts of the backend
(`app/services/forecaster.py`, `app/services/data_pipeline.py`,
`app/services/anomaly_detector.py`) that the verified properties concern.

Modelling conventions:
* Python floats are modelled as rationals (`ℚ`).  A float that may be
  non-finite (NaN / ±inf) or `None` is modelled as `Option ℚ`, with `none`
  standing for the non-finite case; `_clean_nan_inf` then becomes
  `Option.getD 0`, exactly the coercion-to-zero the source performs.
* Python `round(x, 2)` is modelled by `round2` below.  Python rounds
  half-to-even while Mathlib `round` rounds half-up; the two agree except at
  exact half-cent values, and no property proved here depends on the tie
  direction (only monotonicity, exactness on two-decimal values, and the
  half-cent error bound are used).
* pandas tables are modelled columnwise (a column is a `List (Option _)`),
  and pandas datetimes as civil dates or day numbers, as documented at each
  definition.
-/

/-- Python `round(x, 2)`: round to two decimal places. -/
def round2 (q : ℚ) : ℚ := (round (q * 100) : ℤ) / 100

theorem round2_mono {x y : ℚ} (h : x ≤ y) : round2 x ≤ round2 y := by
  unfold round2
  have h100 : x * 100 ≤ y * 100 := by nlinarith
  have hr : round (x * 100) ≤ round (y * 100) := by
    rw [round_eq, round_eq]
    exact Int.floor_le_floor (by linarith)
  have : ((round (x * 100) : ℤ) : ℚ) ≤ ((round (y * 100) : ℤ) : ℚ) := by
    exact_mod_cast hr
  linarith

theorem round2_zero : round2 0 = 0 := by
  unfold round2
  norm_num

theorem round2_nonneg {x : ℚ} (h : 0 ≤ x) : 0 ≤ round2 x := by
  have := round2_mono h
  rwa [round2_zero] at this

theorem round2_hundred : round2 100 = 100 := by
  unfold round2
  norm_num

/-- Rounding to cents moves a value by at most half a cent. -/
theorem abs_round2_sub (x : ℚ) : |round2 x - x| ≤ 1 / 200 := by
  unfold round2
  have h := abs_sub_round (x * 100)
  rw [abs_sub_comm] at h
  have h2 : |(round (x * 100) : ℚ) / 100 - x| = |(round (x * 100) : ℚ) - x * 100| / 100 := by
    rw [← abs_of_pos (show (0 : ℚ) < 100 by norm_num), ← abs_div]
    congr 1
    field_simp
    ring
  rw [h2]
  rw [div_le_div_iff₀ (by norm_num) (by norm_num)]
  nlinarith [h]

/-! ## Forecast points (`forecaster.py`)

`ForecastPoint` mirrors `app/models/schemas.py::ForecastPoint`; the four
constructor functions below are the four places in `Forecaster.train_prophet`
and `Forecaster.train_lightgbm` that build forecast points.
-/

structure ForecastPoint where
  date : String
  actual : Option ℚ
  predicted : ℚ
  lower_bound : ℚ
  upper_bound : ℚ
deriving DecidableEq, Repr

/-- `Forecaster._clean_nan_inf`: `None`, NaN and ±inf are coerced to `0.0`,
finite floats pass through.  `none` models the non-finite/missing case. -/
def clean_nan_inf (v : Option ℚ) : ℚ := v.getD 0

/-- `train_lightgbm` future loop: `prediction = max(0, model.predict(...)[0])`
followed by `prediction = self._clean_nan_inf(prediction)`.  In Python,
`max(0, x)` is `0` when `x` is NaN or −inf (the comparison is false) and +inf
when `x` is +inf, which `_clean_nan_inf` then sends to `0`; so a non-finite
raw prediction always ends at `0`, and a finite one at `max 0 x`. -/
def lgbm_future_prediction (raw : Option ℚ) : ℚ :=
  match raw with
  | none => 0
  | some x => max 0 x

/-- Prophet future point (`train_prophet`, forecast loop):
`predicted=max(0, round(yhat, 2))`, `lower_bound=max(0, round(yhat_lower, 2))`,
`upper_bound=round(yhat_upper, 2)`. -/
def mk_prophet_forecast_point (ds : String) (yhat yhat_lower yhat_upper : ℚ) : ForecastPoint :=
  { date := ds
    actual := none
    predicted := max 0 (round2 yhat)
    lower_bound := max 0 (round2 yhat_lower)
    upper_bound := round2 yhat_upper }

/-- Prophet historical point (`train_prophet`, historical loop): same clamping,
plus `actual=round(y, 2)`. -/
def mk_prophet_historical_point (ds : String) (y yhat yhat_lower yhat_upper : ℚ) :
    ForecastPoint :=
  { date := ds
    actual := some (round2 y)
    predicted := max 0 (round2 yhat)
    lower_bound := max 0 (round2 yhat_lower)
    upper_bound := round2 yhat_upper }

/-- LightGBM future point (`train_lightgbm`, future loop).  `sigma` models
`np.std(y) * 0.1` (possibly NaN for an empty series), cleaned by
`_clean_nan_inf`; the half-width is `1.96 * std_dev`. -/
def mk_lgbm_forecast_point (ds : String) (raw : Option ℚ) (sigma : Option ℚ) : ForecastPoint :=
  let prediction := lgbm_future_prediction raw
  let std_dev := clean_nan_inf sigma
  { date := ds
    actual := none
    predicted := round2 prediction
    lower_bound := max 0 (round2 (prediction - 196 / 100 * std_dev))
    upper_bound := round2 (prediction + 196 / 100 * std_dev) }

/-- LightGBM historical point (`train_lightgbm`, historical loop):
`y_hist_pred[idx]` was already passed through `_clean_nan_inf`;
`predicted=max(0, round(h, 2))` but the bounds are computed from the
unclamped `h`. -/
def mk_lgbm_historical_point (ds : String) (actual : ℚ) (raw : Option ℚ) (sigma : Option ℚ) :
    ForecastPoint :=
  let h := clean_nan_inf raw
  let std_dev := clean_nan_inf sigma
  { date := ds
    actual := some (round2 actual)
    predicted := max 0 (round2 h)
    lower_bound := max 0 (round2 (h - 196 / 100 * std_dev))
    upper_bound := round2 (h + 196 / 100 * std_dev) }

/-- C4: for every forecast produced by either strategy, every forecast point —
future and historical — has `predicted ≥ 0` after clamping.  The four
conjuncts cover the four point-building sites: Prophet future, Prophet
historical, LightGBM future, LightGBM historical. -/
theorem C4_predicted_nonneg :
    (∀ ds yhat yl yu, 0 ≤ (mk_prophet_forecast_point ds yhat yl yu).predicted) ∧
    (∀ ds y yhat yl yu, 0 ≤ (mk_prophet_historical_point ds y yhat yl yu).predicted) ∧
    (∀ ds raw sigma, 0 ≤ (mk_lgbm_forecast_point ds raw sigma).predicted) ∧
    (∀ ds a raw sigma, 0 ≤ (mk_lgbm_historical_point ds a raw sigma).predicted) := by
  refine ⟨fun ds yhat yl yu => le_max_left 0 _,
          fun ds y yhat yl yu => le_max_left 0 _,
          fun ds raw sigma => ?_,
          fun ds a raw sigma => le_max_left 0 _⟩
  have hp : 0 ≤ lgbm_future_prediction raw := by
    cases raw with
    | none => simp [lgbm_future_prediction]
    | some x => simp [lgbm_future_prediction]
  exact round2_nonneg hp

/-- C10 (amended): for LightGBM forecast points the half-width
`1.96 * std_dev` is nonnegative whenever the cleaned standard deviation is,
and then: future points satisfy the full ordering
`lower_bound ≤ predicted ≤ upper_bound` (their bounds are computed from the
already-clamped prediction); historical points always satisfy
`lower_bound ≤ predicted`, but `predicted ≤ upper_bound` is only guaranteed
when the cleaned raw historical prediction is nonnegative, because the
historical bounds are computed from the unclamped prediction. -/
theorem C10_lgbm_bound_ordering :
    (∀ ds raw sigma, 0 ≤ clean_nan_inf sigma →
      (mk_lgbm_forecast_point ds raw sigma).lower_bound ≤
          (mk_lgbm_forecast_point ds raw sigma).predicted ∧
      (mk_lgbm_forecast_point ds raw sigma).predicted ≤
          (mk_lgbm_forecast_point ds raw sigma).upper_bound) ∧
    (∀ ds a raw sigma, 0 ≤ clean_nan_inf sigma →
      (mk_lgbm_historical_point ds a raw sigma).lower_bound ≤
          (mk_lgbm_historical_point ds a raw sigma).predicted) ∧
    (∀ ds a raw sigma, 0 ≤ clean_nan_inf sigma → 0 ≤ clean_nan_inf raw →
      (mk_lgbm_historical_point ds a raw sigma).predicted ≤
          (mk_lgbm_historical_point ds a raw sigma).upper_bound) := by
  have hw : ∀ (p c : ℚ), 0 ≤ c → round2 (p - c) ≤ round2 p ∧ round2 p ≤ round2 (p + c) := by
    intro p c hc
    exact ⟨round2_mono (by linarith), round2_mono (by linarith)⟩
  refine ⟨fun ds raw sigma hs => ?_, fun ds a raw sigma hs => ?_, fun ds a raw sigma hs hr => ?_⟩
  · have hc : (0 : ℚ) ≤ 196 / 100 * clean_nan_inf sigma := by positivity
    have hp : 0 ≤ lgbm_future_prediction raw := by
      cases raw with
      | none => simp [lgbm_future_prediction]
      | some x => simp [lgbm_future_prediction]
    refine ⟨?_, (hw _ _ hc).2⟩
    exact max_le (round2_nonneg hp) (hw _ _ hc).1
  · have hc : (0 : ℚ) ≤ 196 / 100 * clean_nan_inf sigma := by positivity
    exact max_le (le_max_left 0 _) (le_trans (hw _ _ hc).1 (le_max_right 0 _))
  · have hc : (0 : ℚ) ≤ 196 / 100 * clean_nan_inf sigma := by positivity
    exact max_le (round2_nonneg (by linarith [(hw (clean_nan_inf raw) _ hc).2, round2_nonneg hr]))
      (hw _ _ hc).2

/-- C10 witness: the amended ordering at a concrete LightGBM point
(raw prediction 5, cleaned std 2). -/
theorem C10_lgbm_bound_ordering_witness :
    (0 : ℚ) ≤ clean_nan_inf (some 2) ∧
    (mk_lgbm_forecast_point "2024-02-29" (some 5) (some 2)).lower_bound ≤
        (mk_lgbm_forecast_point "2024-02-29" (some 5) (some 2)).predicted ∧
    (mk_lgbm_forecast_point "2024-02-29" (some 5) (some 2)).predicted ≤
        (mk_lgbm_forecast_point "2024-02-29" (some 5) (some 2)).upper_bound := by
  have h := (C10_lgbm_bound_ordering.1 "2024-02-29" (some 5) (some 2)
    (by norm_num [clean_nan_inf]))
  exact ⟨by norm_num [clean_nan_inf], h.1, h.2⟩

/-- C10 counterexample: a historical LightGBM point with cleaned raw
prediction −10 and cleaned std 1 has `predicted = 0` but
`upper_bound = −8.04`, so the claimed full ordering
`lower_bound ≤ predicted ≤ upper_bound` fails on historical points. -/
theorem C10_counterexample :
    ¬ ((mk_lgbm_historical_point "2023-01-31" 0 (some (-10)) (some 1)).lower_bound ≤
          (mk_lgbm_historical_point "2023-01-31" 0 (some (-10)) (some 1)).predicted ∧
       (mk_lgbm_historical_point "2023-01-31" 0 (some (-10)) (some 1)).predicted ≤
          (mk_lgbm_historical_point "2023-01-31" 0 (some (-10)) (some 1)).upper_bound) := by
  intro h
  have h2 := h.2
  norm_num [mk_lgbm_historical_point, clean_nan_inf, round2, round_eq] at h2

/-! ## Metrics (`Forecaster._calculate_metrics` and the 80/20 split)

`ForecastMetrics` mirrors the fields of `app/models/schemas.py::ForecastMetrics`
that the verified properties mention; `rmse` (an irrational square root) and
the bias fields produced by `BiasDetector` are not referenced by any claim and
are omitted from the embedding.
-/

structure ForecastMetrics where
  mae : ℚ
  mape : ℚ
  train_size : ℕ
  test_size : ℕ
deriving DecidableEq, Repr

/-- `np.mean` of a list.  numpy yields NaN on an empty array; the claims only
concern non-empty arrays, where this agrees with numpy. -/
def listMean (l : List ℚ) : ℚ := l.sum / l.length

/-- The raw MAPE expression of `_calculate_metrics`:
`np.mean(np.abs((y_true - y_pred) / np.where(y_true == 0, 1, y_true))) * 100`. -/
def mape_raw (y_true y_pred : List ℚ) : ℚ :=
  listMean ((y_true.zip y_pred).map (fun p => |(p.1 - p.2) / (if p.1 = 0 then 1 else p.1)|)) * 100

/-- `Forecaster._calculate_metrics(y_true, y_pred)`: note the source stores
`train_size=len(y_true)` and `test_size=len(y_pred)` — both computed from the
held-out arrays it receives. -/
def calculate_metrics (y_true y_pred : List ℚ) : ForecastMetrics :=
  { mae := round2 (listMean ((y_true.zip y_pred).map (fun p => |p.1 - p.2|)))
    mape := round2 (min (mape_raw y_true y_pred) 100)
    train_size := y_true.length
    test_size := y_pred.length }

/-- `train_size = int(len(df) * 0.8)` as in `train_prophet`/`train_lightgbm`.
For list lengths in range, the float expression `int(n * 0.8)` equals
`⌊4n/5⌋`: `float(0.8)` exceeds 4/5 by ≈ 4.44e-17, and the product's rounding
cannot cross an integer boundary because `4n/5` is either an integer (then the
excess is below half an ulp) or at distance ≥ 1/5 from one. -/
def train_split_size (n : ℕ) : ℕ := 4 * n / 5

/-- The held-out split: both strategies evaluate on `iloc[train_size:]`. -/
def test_split (ys : List ℚ) : List ℚ := ys.drop (train_split_size ys.length)

/-- A forecast run's metric computation: both `train_prophet` and
`train_lightgbm` call `_calculate_metrics(test_actuals, test_predictions)`,
where `preds` are the model's predictions on the held-out split. -/
def run_eval_metrics (ys preds : List ℚ) : ForecastMetrics :=
  calculate_metrics (test_split ys) preds

/-- C5: with a non-empty held-out split, the reported MAPE lies in [0, 100]:
every summand is an absolute value (with denominator 1 substituted when the
actual is 0), so the mean is nonnegative, and the `min(·, 100)` cap plus the
final two-decimal rounding keep it at most 100. -/
theorem C5_mape_in_range (y_true y_pred : List ℚ) (h : 0 < y_true.length) :
    0 ≤ (calculate_metrics y_true y_pred).mape ∧
    (calculate_metrics y_true y_pred).mape ≤ 100 := by
  have hraw : 0 ≤ mape_raw y_true y_pred := by
    unfold mape_raw listMean
    have hsum : 0 ≤ ((y_true.zip y_pred).map
        (fun p => |(p.1 - p.2) / (if p.1 = 0 then 1 else p.1)|)).sum := by
      apply List.sum_nonneg
      intro x hx
      obtain ⟨p, _, rfl⟩ := List.mem_map.1 hx
      exact abs_nonneg _
    have hlen : (0 : ℚ) ≤ (((y_true.zip y_pred).map
        (fun p => |(p.1 - p.2) / (if p.1 = 0 then 1 else p.1)|)).length : ℚ) := by positivity
    have := div_nonneg hsum hlen
    nlinarith
  constructor
  · exact round2_nonneg (le_min hraw (by norm_num))
  · calc (calculate_metrics y_true y_pred).mape
        = round2 (min (mape_raw y_true y_pred) 100) := rfl
      _ ≤ round2 100 := round2_mono (min_le_right _ _)
      _ = 100 := round2_hundred

/-- C5 witness: a singleton held-out split with actual 2 and prediction 1. -/
theorem C5_mape_in_range_witness :
    0 < [(2 : ℚ)].length ∧
    0 ≤ (calculate_metrics [(2 : ℚ)] [(1 : ℚ)]).mape ∧
    (calculate_metrics [(2 : ℚ)] [(1 : ℚ)]).mape ≤ 100 := by
  exact ⟨by norm_num, C5_mape_in_range [(2 : ℚ)] [(1 : ℚ)] (by norm_num)⟩

/-- C2 (amended): `_calculate_metrics` receives the held-out actuals as
`y_true` and the held-out predictions as `y_pred` and stores
`train_size=len(y_true)`, `test_size=len(y_pred)`, so *both* reported sizes
equal the number of rows used for evaluation, and their sum is twice that
number — not equal to it. -/
theorem C2_split_sizes (ys preds : List ℚ)
    (h : preds.length = (test_split ys).length) :
    (run_eval_metrics ys preds).train_size = (test_split ys).length ∧
    (run_eval_metrics ys preds).test_size = (test_split ys).length ∧
    (run_eval_metrics ys preds).test_size + (run_eval_metrics ys preds).train_size
      = 2 * (test_split ys).length := by
  refine ⟨rfl, h, ?_⟩
  have h1 : (run_eval_metrics ys preds).train_size = (test_split ys).length := rfl
  have h2 : (run_eval_metrics ys preds).test_size = preds.length := rfl
  omega

/-- C2 witness: a 10-row series; the held-out split has 2 rows and both
reported sizes are 2, summing to 4. -/
theorem C2_split_sizes_witness :
    (List.replicate 2 (0 : ℚ)).length = (test_split (List.replicate 10 (0 : ℚ))).length ∧
    (run_eval_metrics (List.replicate 10 (0 : ℚ)) (List.replicate 2 (0 : ℚ))).train_size
      = (test_split (List.replicate 10 (0 : ℚ))).length ∧
    (run_eval_metrics (List.replicate 10 (0 : ℚ)) (List.replicate 2 (0 : ℚ))).test_size
      = (test_split (List.replicate 10 (0 : ℚ))).length ∧
    (run_eval_metrics (List.replicate 10 (0 : ℚ)) (List.replicate 2 (0 : ℚ))).test_size
        + (run_eval_metrics (List.replicate 10 (0 : ℚ)) (List.replicate 2 (0 : ℚ))).train_size
      = 2 * (test_split (List.replicate 10 (0 : ℚ))).length := by
  have h : (List.replicate 2 (0 : ℚ)).length
      = (test_split (List.replicate 10 (0 : ℚ))).length := by
    simp [test_split, train_split_size]
  exact ⟨h, C2_split_sizes (List.replicate 10 (0 : ℚ)) (List.replicate 2 (0 : ℚ)) h⟩

/-- C2 counterexample: on a 10-row series (held-out split of 2 rows) the code
reports `test_size + train_size = 4`, not the 2 rows used for evaluation. -/
theorem C2_counterexample :
    ¬ ((run_eval_metrics (List.replicate 10 (0 : ℚ)) (List.replicate 2 (0 : ℚ))).test_size
        + (run_eval_metrics (List.replicate 10 (0 : ℚ)) (List.replicate 2 (0 : ℚ))).train_size
      = (test_split (List.replicate 10 (0 : ℚ))).length) := by
  simp [run_eval_metrics, calculate_metrics, test_split, train_split_size]

/-! ## Feature importances (`Forecaster.train_lightgbm`, lines 259–268)

`sorted(zip(feature_cols, importances), key=lambda x: x[1], reverse=True)` is
a *stable* descending sort by importance; `List.insertionSort` with the
relation `imp_desc` below is also stable for that key, and any two stable
sorts of the same list under the same preorder coincide, so the embedding
produces exactly the Python ordering.  LightGBM's `feature_importances_` are
finite nonnegative split counts, on which `_clean_nan_inf` is the identity.
-/

structure FeatureImportance where
  feature : String
  importance : ℚ
deriving DecidableEq, Repr

/-- Descending comparison on (feature, importance) pairs. -/
def imp_desc (a b : String × ℚ) : Prop := b.2 ≤ a.2

instance : DecidableRel imp_desc := fun a b => inferInstanceAs (Decidable (b.2 ≤ a.2))

instance : IsTotal (String × ℚ) imp_desc := ⟨fun a b => le_total b.2 a.2⟩

instance : IsTrans (String × ℚ) imp_desc := ⟨fun _ _ _ h1 h2 => le_trans h2 h1⟩

/-- The feature-importance block of `train_lightgbm`:
`importance_sum = float(np.sum(importances)) if np.sum(importances) > 0 else 1.0`
followed by the top-10 of the descending sort, each importance reported as
`round(imp / importance_sum * 100, 2)`. -/
def feature_importance_list (feats : List (String × ℚ)) : List FeatureImportance :=
  let importance_sum : ℚ :=
    if 0 < (feats.map (fun p => p.2)).sum then (feats.map (fun p => p.2)).sum else 1
  ((List.insertionSort imp_desc feats).take 10).map
    (fun p => { feature := p.1, importance := round2 (p.2 / importance_sum * 100) })

/-- Summing two-decimal roundings of a list moves the total by at most half a
cent per entry. -/
theorem sum_map_round2_close :
    ∀ l : List ℚ, |(l.map round2).sum - l.sum| ≤ (l.length : ℚ) / 200 := by
  intro l
  induction l with
  | nil => simp
  | cons a t ih =>
    have h1 := abs_round2_sub a
    have htr : |round2 a + (t.map round2).sum - (a + t.sum)|
        ≤ |round2 a - a| + |(t.map round2).sum - t.sum| := by
      have : round2 a + (t.map round2).sum - (a + t.sum)
          = (round2 a - a) + ((t.map round2).sum - t.sum) := by ring
      rw [this]
      exact abs_add _ _
    simp only [List.map_cons, List.sum_cons, List.length_cons]
    calc |round2 a + (t.map round2).sum - (a + t.sum)|
        ≤ |round2 a - a| + |(t.map round2).sum - t.sum| := htr
      _ ≤ 1 / 200 + (t.length : ℚ) / 200 := add_le_add h1 ih
      _ = ((t.length + 1 : ℕ) : ℚ) / 200 := by push_cast; ring

/-- C1 (amended): the reported feature importances are the top 10 features in
descending importance order (stable on ties), but each percentage is the
feature's share of the total importance over *all* features, so the reported
top-10 percentages sum (up to the half-cent-per-entry rounding, hence within
1/20) to `100 * top10_mass / total_mass` — at most 100, and equal to 100 only
when every feature outside the top 10 has zero importance. -/
theorem C1_feature_importance_top10 (feats : List (String × ℚ))
    (hnn : ∀ p ∈ feats, 0 ≤ p.2)
    (hpos : 0 < (feats.map (fun p => p.2)).sum) :
    List.Pairwise (fun a b => b.importance ≤ a.importance) (feature_importance_list feats) ∧
    (((List.insertionSort imp_desc feats).take 10).map (fun p => p.2)).sum
      ≤ (feats.map (fun p => p.2)).sum ∧
    |((feature_importance_list feats).map (fun f => f.importance)).sum
        - 100 * (((List.insertionSort imp_desc feats).take 10).map (fun p => p.2)).sum
          / (feats.map (fun p => p.2)).sum| ≤ 1 / 20 := by
  set S : ℚ := (feats.map (fun p => p.2)).sum with hSdef
  set sorted : List (String × ℚ) := List.insertionSort imp_desc feats with hsorteddef
  set top : List (String × ℚ) := sorted.take 10 with htopdef
  have hfil : feature_importance_list feats
      = top.map (fun p => ⟨p.1, round2 (p.2 / S * 100)⟩) := by
    simp only [feature_importance_list, ← hSdef, ← hsorteddef, ← htopdef]
    rw [if_pos hpos]
  have hperm : sorted.Perm feats := List.perm_insertionSort imp_desc feats
  have hTS : (top.map (fun p => p.2)).sum ≤ S := by
    have hsum : (sorted.map (fun p => p.2)).sum = S := (hperm.map (fun p => p.2)).sum_eq
    have hdec : sorted = top ++ sorted.drop 10 := (List.take_append_drop 10 sorted).symm
    have hdropnn : 0 ≤ ((sorted.drop 10).map (fun p => p.2)).sum := by
      apply List.sum_nonneg
      intro x hx
      obtain ⟨p, hp, rfl⟩ := List.mem_map.1 hx
      exact hnn p (hperm.mem_iff.1 (List.mem_of_mem_drop hp))
    have : (top.map (fun p => p.2)).sum + ((sorted.drop 10).map (fun p => p.2)).sum = S := by
      rw [← hsum]
      conv_rhs => rw [hdec]
      rw [List.map_append, List.sum_append]
    linarith
  refine ⟨?_, hTS, ?_⟩
  · rw [hfil]
    have hsorted : List.Pairwise imp_desc sorted := List.sorted_insertionSort imp_desc feats
    have htop : List.Pairwise imp_desc top :=
      List.Pairwise.sublist (List.take_sublist 10 sorted) hsorted
    apply List.Pairwise.map _ _ htop
    intro a b hab
    exact round2_mono (by unfold imp_desc at hab; gcongr)
  · have hmm : (feature_importance_list feats).map (fun f => f.importance)
        = (top.map (fun p => p.2 / S * 100)).map round2 := by
      rw [hfil, List.map_map, List.map_map]
      rfl
    have hclose := sum_map_round2_close (top.map (fun p => p.2 / S * 100))
    have hlin : (top.map (fun p => p.2 / S * 100)).sum = 100 * (top.map (fun p => p.2)).sum / S := by
      have h1 : top.map (fun p => p.2 / S * 100) = top.map (fun p => p.2 * (100 / S)) := by
        apply List.map_congr_left
        intro p _
        ring
      rw [h1, List.sum_map_mul_right]
      ring
    have hlen : ((top.map (fun p => p.2 / S * 100)).length : ℚ) ≤ 10 := by
      have : (top.map (fun p => p.2 / S * 100)).length = min 10 sorted.length := by
        rw [List.length_map, htopdef, List.length_take]
      rw [this]
      exact_mod_cast Nat.cast_le.2 (min_le_left 10 sorted.length)
    rw [hmm, ← hlin]
    calc |((top.map (fun p => p.2 / S * 100)).map round2).sum
            - (top.map (fun p => p.2 / S * 100)).sum|
        ≤ ((top.map (fun p => p.2 / S * 100)).length : ℚ) / 200 := hclose
      _ ≤ 1 / 20 := by linarith

/-- C1 witness: two features with importances 3 and 1; the reported list is
sorted descending and the bound holds. -/
theorem C1_feature_importance_top10_witness :
    (∀ p ∈ [("a", (3 : ℚ)), ("b", 1)], 0 ≤ p.2) ∧
    0 < ([("a", (3 : ℚ)), ("b", 1)].map (fun p => p.2)).sum ∧
    List.Pairwise (fun a b => b.importance ≤ a.importance)
      (feature_importance_list [("a", (3 : ℚ)), ("b", 1)]) := by
  have h1 : ∀ p ∈ [("a", (3 : ℚ)), ("b", 1)], 0 ≤ p.2 := by
    intro p hp
    fin_cases hp <;> norm_num
  have h2 : 0 < ([("a", (3 : ℚ)), ("b", 1)].map (fun p => p.2)).sum := by norm_num
  exact ⟨h1, h2, (C1_feature_importance_top10 _ h1 h2).1⟩

/-- C1 counterexample: with 11 features of equal importance 1, each reported
percentage is `round(100/11, 2) = 9.09`, so the ten reported entries sum to
90.9, not (approximately) 100. -/
theorem C1_counterexample :
    ¬ (|((feature_importance_list
        [("f1", (1 : ℚ)), ("f2", 1), ("f3", 1), ("f4", 1), ("f5", 1), ("f6", 1),
         ("f7", 1), ("f8", 1), ("f9", 1), ("f10", 1), ("f11", 1)]).map
          (fun f => f.importance)).sum - 100| ≤ 1) := by
  norm_num [feature_importance_list, List.insertionSort, List.orderedInsert, imp_desc,
    round2, round_eq, abs_of_nonneg]

/-! ## Forecast dispatch (`Forecaster.forecast`, lines 344–357)

The fitted Prophet model is modelled as an oracle `predict : String → ProphetRow`
(its per-date outputs), and the fitted LightGBM model by its raw prediction
lists; the surrounding assembly code (splits, clamping, rounding, result dict)
is embedded exactly.  `_import_lightgbm` raises when the dependency is
unavailable; this is modelled by `Except`.
-/

inductive ModelType where
  | prophet
  | lightgbm
deriving DecidableEq, Repr

structure DecompositionData where
  trend : List (String × ℚ)
  seasonal : List (String × ℚ)
  residual : List (String × ℚ)

structure ForecastResult where
  forecast : List ForecastPoint
  historical : List ForecastPoint
  metrics : ForecastMetrics
  decomposition : Option DecompositionData
  feature_importance : Option (List FeatureImportance)

/-- One row of `model.predict(...)` output for Prophet. -/
structure ProphetRow where
  yhat : ℚ
  yhat_lower : ℚ
  yhat_upper : ℚ
  trend : ℚ
  yearly : ℚ
  weekly : ℚ

structure ProphetModel where
  predict : String → ProphetRow

/-- `Forecaster._extract_prophet_decomposition`: trend, yearly+weekly seasonal,
and in-sample residual `y - yhat`, all rounded to two decimals. -/
def extract_prophet_decomposition (m : ProphetModel) (df : List (String × ℚ)) :
    DecompositionData :=
  { trend := df.map (fun p => (p.1, round2 (m.predict p.1).trend))
    seasonal := df.map (fun p => (p.1, round2 ((m.predict p.1).yearly + (m.predict p.1).weekly)))
    residual := df.map (fun p => (p.1, round2 (p.2 - (m.predict p.1).yhat))) }

/-- `Forecaster.train_prophet`: evaluate on the 20% held-out split, build
future and historical points, attach the decomposition, and return
`feature_importance = None`. -/
def train_prophet_run (df : List (String × ℚ)) (m : ProphetModel)
    (future_dates : List String) : ForecastResult :=
  let test_df := df.drop (train_split_size df.length)
  { forecast := future_dates.map (fun ds =>
      mk_prophet_forecast_point ds (m.predict ds).yhat (m.predict ds).yhat_lower
        (m.predict ds).yhat_upper)
    historical := df.map (fun p =>
      mk_prophet_historical_point p.1 p.2 (m.predict p.1).yhat (m.predict p.1).yhat_lower
        (m.predict p.1).yhat_upper)
    metrics := calculate_metrics (test_df.map (fun p => p.2))
      (test_df.map (fun p => (m.predict p.1).yhat))
    decomposition := some (extract_prophet_decomposition m df)
    feature_importance := none }

/-- The raw outputs of the fitted LightGBM model on one run. -/
structure LgbmOutputs where
  test_pred : List (Option ℚ)
  hist_pred : List (Option ℚ)
  future : List (String × Option ℚ)
  importances : List (String × ℚ)
  sigma : Option ℚ

/-- `Forecaster.train_lightgbm`: evaluate on the held-out split (predictions
passed through `_clean_nan_inf`), report the top-10 feature importances,
and return `decomposition = None`. -/
def train_lightgbm_run (df : List (String × ℚ)) (o : LgbmOutputs) : ForecastResult :=
  { forecast := o.future.map (fun p => mk_lgbm_forecast_point p.1 p.2 o.sigma)
    historical := (df.zip o.hist_pred).map (fun p =>
      mk_lgbm_historical_point p.1.1 p.1.2 p.2 o.sigma)
    metrics := calculate_metrics (test_split (df.map (fun p => p.2)))
      (o.test_pred.map (fun v => clean_nan_inf v))
    decomposition := none
    feature_importance := some (feature_importance_list o.importances) }

/-- `_import_lightgbm()`: raises `ImportError`/`OSError` when the optional
dependency cannot be loaded. -/
def import_lightgbm (lightgbm_available : Bool) : Except String Unit :=
  if lightgbm_available then Except.ok () else Except.error "Failed to import lightgbm"

/-- `train_lightgbm` itself starts with `_import_lightgbm()`, so called
directly it propagates the import failure. -/
def train_lightgbm_checked (lightgbm_available : Bool) (df : List (String × ℚ))
    (o : LgbmOutputs) : Except String ForecastResult :=
  match import_lightgbm lightgbm_available with
  | Except.error e => Except.error e
  | Except.ok _ => Except.ok (train_lightgbm_run df o)

/-- `Forecaster.forecast`: if LightGBM is requested but `_import_lightgbm()`
raises, switch the model type to Prophet and proceed. -/
def forecast_dispatch (lightgbm_available : Bool) (model_type : ModelType)
    (df : List (String × ℚ)) (pm : ProphetModel) (future_dates : List String)
    (o : LgbmOutputs) : Except String ForecastResult :=
  let mt := match model_type, import_lightgbm lightgbm_available with
    | ModelType.lightgbm, Except.error _ => ModelType.prophet
    | m, _ => m
  match mt with
  | ModelType.prophet => Except.ok (train_prophet_run df pm future_dates)
  | ModelType.lightgbm => train_lightgbm_checked lightgbm_available df o

/-- C7: when the tree-ensemble dependency is unavailable and the tree-ensemble
model type is requested, the dispatcher returns the decomposition strategy's
result (decomposition present, no feature importances) instead of an error. -/
theorem C7_lightgbm_fallback (df : List (String × ℚ)) (pm : ProphetModel)
    (future_dates : List String) (o : LgbmOutputs) :
    forecast_dispatch false ModelType.lightgbm df pm future_dates o
      = Except.ok (train_prophet_run df pm future_dates) ∧
    (train_prophet_run df pm future_dates).decomposition.isSome = true ∧
    (train_prophet_run df pm future_dates).feature_importance = none := by
  refine ⟨rfl, ?_, rfl⟩
  simp [train_prophet_run]

/-! ## Scenario simulator (`ScenarioSimulator.simulate_scenario`)

A forecast point enters the simulation only through its `predicted` value
(`f.get('predicted', 0)`), so `forecast_data` is modelled as the list of
predicted values. -/

structure ScenarioResult where
  original_revenue : ℚ
  new_revenue : ℚ
  revenue_change : ℚ
  revenue_change_pct : ℚ
  risk_level : String
  forecast : List ℚ

def simulate_scenario (forecast_data : List ℚ) (price_change_pct volume_change_pct : ℚ) :
    ScenarioResult :=
  let price_change := price_change_pct / 100
  let volume_change := volume_change_pct / 100
  let original_revenue := forecast_data.sum
  let actual_volume_change := volume_change - price_change * (5 / 10)
  let new_forecast := forecast_data.map
    (fun p => p * (1 + actual_volume_change) * (1 + price_change))
  let new_revenue := new_forecast.sum
  let revenue_change := new_revenue - original_revenue
  let revenue_change_pct :=
    if 0 < original_revenue then revenue_change / original_revenue * 100 else 0
  { original_revenue := round2 original_revenue
    new_revenue := round2 new_revenue
    revenue_change := round2 revenue_change
    revenue_change_pct := round2 revenue_change_pct
    risk_level := if 50 < |revenue_change_pct| then "high"
      else if 20 < |revenue_change_pct| then "medium" else "low"
    forecast := new_forecast }

/-- C8: the zero scenario (`price_change = 0`, `volume_change = 0`) leaves the
total revenue unchanged, reports a 0% revenue change and risk tier low. -/
theorem C8_zero_scenario (forecast_data : List ℚ) :
    (simulate_scenario forecast_data 0 0).new_revenue
      = (simulate_scenario forecast_data 0 0).original_revenue ∧
    (simulate_scenario forecast_data 0 0).revenue_change_pct = 0 ∧
    (simulate_scenario forecast_data 0 0).risk_level = "low" := by
  have hmap : forecast_data.map
      (fun p => p * (1 + (0 / 100 - 0 / 100 * (5 / 10))) * (1 + 0 / 100)) = forecast_data := by
    have h1 : ∀ p ∈ forecast_data,
        p * (1 + (0 / 100 - 0 / 100 * (5 / 10))) * (1 + 0 / 100) = p := fun p _ => by ring
    rw [List.map_congr_left h1]
    simp
  have hpct : (if 0 < forecast_data.sum
      then (forecast_data.sum - forecast_data.sum) / forecast_data.sum * 100 else 0) = 0 := by
    split_ifs <;> simp
  refine ⟨?_, ?_, ?_⟩
  · simp only [simulate_scenario, hmap]
  · simp only [simulate_scenario, hmap, hpct]
    exact round2_zero
  · simp only [simulate_scenario, hmap, hpct]
    norm_num

/-! ## Validation (`DataPipeline.validate`)

The raw upload is modelled by its column names and, per row, the result of
`pd.to_datetime(..., errors='coerce')` on the (alias-normalised) date column
(`none` = NaT).  Error strings are appended at exactly two sites: the missing
date column, and all date values invalid (note `isna().all()` is true on an
empty table, as in pandas).  The numeric-detection and missing-value passes of
`validate` append only *warnings*, never errors, so they cannot affect
`is_valid`; of those we model the invalid-dates warning.  The
`except`-branch error around `pd.to_datetime` is unreachable with
`errors='coerce'` and is not modelled. -/

structure RawTable where
  columns : List String
  dates : List (Option ℤ)

structure ValidationResult where
  is_valid : Bool
  errors : List String
  warnings : List String
  row_count : ℕ
deriving DecidableEq, Repr

def validate (t : RawTable) : ValidationResult :=
  let errors :=
    (if "date" ∈ t.columns then [] else ["Missing required date column"]) ++
    (if "date" ∈ t.columns ∧ t.dates.all (fun d => d.isNone)
      then ["All date values are invalid"] else [])
  let warnings :=
    if "date" ∈ t.columns ∧ 0 < t.dates.countP (fun d => d.isNone)
      then ["rows have invalid or missing dates"] else []
  { is_valid := errors.length == 0
    errors := errors
    warnings := warnings
    row_count := t.dates.length }

/-- C9: the `ValidationResult` of any raw table has `is_valid` true exactly
when its error list is empty (`is_valid=len(errors) == 0`, and the same list
is stored in the `errors` field). -/
theorem C9_is_valid_iff_no_errors (t : RawTable) :
    (validate t).is_valid = true ↔ (validate t).errors = [] := by
  show ((validate t).errors.length == 0) = true ↔ (validate t).errors = []
  simp [List.length_eq_zero]

/-! ## Cleaning (`DataPipeline.clean_data`)

`clean_data` first drops the rows whose date failed to parse
(`dropna(subset=['date'])`), then imputes each numeric column with its median
(`fillna(median)` — a no-op when the column is entirely missing, since the
median of an all-NaN column is itself NaN) and each categorical column with
its first mode (skipped entirely when `mode()` is empty, i.e. the column is
all-missing).  Columns are processed independently, so they are modelled as
lists paired with the shared date-parse mask. -/

/-- Keep the entries of `col` whose row has a parseable date
(`df.dropna(subset=['date'])`, restricted to one column). -/
def drop_unparseable_dates {α : Type} (dates : List (Option ℤ)) (col : List α) : List α :=
  ((dates.zip col).filter (fun p => p.1.isSome)).map (fun p => p.2)

/-- `pandas.Series.median()` over the non-missing values: sort ascending and
take the middle element (odd length) or the mean of the two middle elements
(even length); NaN (here `none`) when there are no values. -/
def pandas_median (l : List ℚ) : Option ℚ :=
  let s := l.insertionSort (fun a b => a ≤ b)
  if s.length = 0 then none
  else if s.length % 2 = 1 then some (s.getD (s.length / 2) 0)
  else some ((s.getD (s.length / 2 - 1) 0 + s.getD (s.length / 2) 0) / 2)

/-- Numeric imputation: `df[col] = df[col].fillna(df[col].median())`.
`fillna` with a NaN filler is the identity. -/
def fill_missing_numeric (dates : List (Option ℤ)) (col : List (Option ℚ)) :
    List (Option ℚ) :=
  let kept := drop_unparseable_dates dates col
  let median_val := pandas_median (kept.filterMap id)
  kept.map (fun x => match x with
    | some v => some v
    | none => median_val)

/-- `pandas.Series.mode()` over the non-missing values: the values of maximal
multiplicity, sorted ascending; empty when the column has no values. -/
def pandas_mode (l : List String) : List String :=
  let uniq := l.dedup
  let maxc := (uniq.map (fun v => l.count v)).foldr max 0
  (uniq.filter (fun v => l.count v = maxc)).insertionSort (fun a b => a ≤ b)

/-- Categorical imputation: `mode_val = df[col].mode(); if len(mode_val) > 0:
df[col] = df[col].fillna(mode_val[0])`. -/
def fill_missing_categorical (dates : List (Option ℤ)) (col : List (Option String)) :
    List (Option String) :=
  match pandas_mode ((drop_unparseable_dates dates col).filterMap id) with
  | m :: _ => (drop_unparseable_dates dates col).map (fun x => match x with
      | some v => some v
      | none => some m)
  | [] => drop_unparseable_dates dates col

/-- The fold computing a pandas mode's maximal multiplicity attains a member
of the list when the list is non-empty. -/
theorem foldr_max_mem (l : List ℕ) (h : l ≠ []) : l.foldr max 0 ∈ l := by
  induction l with
  | nil => exact absurd rfl h
  | cons a t ih =>
    cases t with
    | nil => simp
    | cons b t2 =>
      have hstep : (a :: b :: t2).foldr max 0 = max a ((b :: t2).foldr max 0) := rfl
      rcases max_cases a ((b :: t2).foldr max 0) with ⟨heq, _⟩ | ⟨heq, _⟩
      · rw [hstep, heq]
        exact List.mem_cons_self a _
      · rw [hstep, heq]
        exact List.mem_cons_of_mem _ (ih (by simp))

/-- `pandas.Series.median` is a value (not NaN) whenever there is at least one
non-missing entry. -/
theorem pandas_median_isSome (l : List ℚ) (h : l ≠ []) : (pandas_median l).isSome = true := by
  unfold pandas_median
  have hlen : (l.insertionSort (fun a b => a ≤ b)).length = l.length :=
    (List.perm_insertionSort _ l).length_eq
  have hne : (l.insertionSort (fun a b => a ≤ b)).length ≠ 0 := by
    rw [hlen]
    simpa using h
  simp only [hne, if_false]
  split_ifs <;> rfl

/-- `pandas.Series.mode` is non-empty whenever there is at least one
non-missing entry. -/
theorem pandas_mode_ne_nil (l : List String) (h : l ≠ []) : pandas_mode l ≠ [] := by
  unfold pandas_mode
  have huniq : l.dedup ≠ [] := by
    intro hc
    exact h ((List.dedup_eq_nil l).1 hc)
  have hmem : (l.dedup.map (fun v => l.count v)).foldr max 0
      ∈ l.dedup.map (fun v => l.count v) := by
    apply foldr_max_mem
    intro hc
    exact huniq (List.map_eq_nil_iff.1 hc)
  obtain ⟨v, hv, hveq⟩ := List.mem_map.1 hmem
  have hfil : v ∈ l.dedup.filter
      (fun w => l.count w = (l.dedup.map (fun u => l.count u)).foldr max 0) := by
    apply List.mem_filter.2
    exact ⟨hv, by simp [hveq]⟩
  intro hc
  have : (l.dedup.filter
      (fun w => l.count w = (l.dedup.map (fun u => l.count u)).foldr max 0)) = [] := by
    have hpermlen := (List.perm_insertionSort (fun a b => a ≤ b)
      (l.dedup.filter (fun w => l.count w
        = (l.dedup.map (fun u => l.count u)).foldr max 0))).length_eq
    rw [hc] at hpermlen
    exact List.length_eq_zero.1 hpermlen.symm
  rw [this] at hfil
  exact List.not_mem_nil v hfil

/-- C3 (amended): after cleaning, a numeric or categorical column contains no
missing values *provided it has at least one non-missing value on the rows
that survive the date filter*; a column that is entirely missing is left
untouched (its median is NaN / its mode list is empty, so `fillna` does
nothing). -/
theorem C3_clean_imputes_nonempty_columns :
    (∀ (dates : List (Option ℤ)) (col : List (Option ℚ)),
      (∃ x ∈ drop_unparseable_dates dates col, x.isSome = true) →
      ∀ y ∈ fill_missing_numeric dates col, y.isSome = true) ∧
    (∀ (dates : List (Option ℤ)) (col : List (Option String)),
      (∃ x ∈ drop_unparseable_dates dates col, x.isSome = true) →
      ∀ y ∈ fill_missing_categorical dates col, y.isSome = true) := by
  constructor
  · intro dates col hex y hy
    obtain ⟨x, hx, hxs⟩ := hex
    obtain ⟨v, rfl⟩ := Option.isSome_iff_exists.1 hxs
    have hne : (drop_unparseable_dates dates col).filterMap id ≠ [] := by
      intro hc
      have : v ∈ (drop_unparseable_dates dates col).filterMap id :=
        List.mem_filterMap.2 ⟨some v, hx, rfl⟩
      rw [hc] at this
      exact List.not_mem_nil v this
    have hmed := pandas_median_isSome _ hne
    unfold fill_missing_numeric at hy
    obtain ⟨z, _, rfl⟩ := List.mem_map.1 hy
    cases z with
    | some w => rfl
    | none => exact hmed
  · intro dates col hex y hy
    obtain ⟨x, hx, hxs⟩ := hex
    obtain ⟨v, rfl⟩ := Option.isSome_iff_exists.1 hxs
    have hne : (drop_unparseable_dates dates col).filterMap id ≠ [] := by
      intro hc
      have : v ∈ (drop_unparseable_dates dates col).filterMap id :=
        List.mem_filterMap.2 ⟨some v, hx, rfl⟩
      rw [hc] at this
      exact List.not_mem_nil v this
    have hmode := pandas_mode_ne_nil _ hne
    unfold fill_missing_categorical at hy
    rcases hm : pandas_mode ((drop_unparseable_dates dates col).filterMap id) with _ | ⟨m, ms⟩
    · exact absurd hm hmode
    · rw [hm] at hy
      obtain ⟨z, _, rfl⟩ := List.mem_map.1 hy
      cases z with
      | some w => rfl
      | none => rfl

/-- C3 witness: two surviving rows with one missing value in each column kind;
after imputation no missing value remains. -/
theorem C3_clean_imputes_nonempty_columns_witness :
    (∃ x ∈ drop_unparseable_dates [some 0, some 1] [some (2 : ℚ), none], x.isSome = true) ∧
    (∀ y ∈ fill_missing_numeric [some 0, some 1] [some (2 : ℚ), none], y.isSome = true) ∧
    (∃ x ∈ drop_unparseable_dates [some 0, some 1] [some "a", none], x.isSome = true) ∧
    (∀ y ∈ fill_missing_categorical [some 0, some 1] [some "a", none], y.isSome = true) := by
  have h1 : ∃ x ∈ drop_unparseable_dates [some 0, some 1] [some (2 : ℚ), none],
      x.isSome = true := by
    refine ⟨some 2, ?_, rfl⟩
    simp [drop_unparseable_dates]
  have h2 : ∃ x ∈ drop_unparseable_dates [some 0, some 1] [some "a", none],
      x.isSome = true := by
    refine ⟨some "a", ?_, rfl⟩
    simp [drop_unparseable_dates]
  exact ⟨h1, C3_clean_imputes_nonempty_columns.1 _ _ h1, h2,
    C3_clean_imputes_nonempty_columns.2 _ _ h2⟩

/-- C3 counterexample: a numeric column whose only surviving value is missing
keeps its missing value — the median of an all-missing column is NaN and
`fillna(NaN)` changes nothing — so the claim as stated (no missing values in
any numeric or categorical column after cleaning) is false. -/
theorem C3_counterexample :
    ¬ (∀ y ∈ fill_missing_numeric [some 0] ([none] : List (Option ℚ)), y.isSome = true) := by
  intro h
  have hmem : (none : Option ℚ) ∈ fill_missing_numeric [some 0] [none] := by
    simp [fill_missing_numeric, drop_unparseable_dates, pandas_median, List.insertionSort]
  have := h none hmem
  simp at this

/-! ## Aggregation (`DataPipeline.aggregate`)

Dates are modelled as civil dates (year, month, day) for monthly bucketing
and as epoch day numbers (1970-01-01 = day 0, a Thursday) for weekly and
daily bucketing; the chronological order on civil dates is the lexicographic
one.  The two branches of `aggregate` label their buckets differently:

* ungrouped: `df.resample(freq)` bins by calendar period and labels each bin
  with its *right* edge — the month end for `'M'`, the Sunday for `'W'`
  (= `'W-SUN'`), the day itself for `'D'` — and emits every period between
  the first and last observed one (empty bins sum to 0, as pandas does);
* grouped: `dt.to_period(freq)` keys by the same periods, but the label
  `period.dt.to_timestamp()` is the period *start* — the first of the month
  for `'M'`, the Monday for `'W'`, the day itself for `'D'` — and only
  observed (period, group) keys are emitted.

Only the target column's sum is carried; the other aggregated columns
(`units_sold` sum, `price` mean, `promotion_flag` max) do not interact with
the date labelling.  pandas weekly periods end on Sunday; with pandas
`dayofweek` (Monday = 0), epoch day n has weekday `(n + 3) % 7`, so the week
containing day n is `[7w − 3, 7w + 3]` where `w = (n + 3) / 7`. -/

structure CivilDate where
  year : ℤ
  month : ℤ
  day : ℤ
deriving DecidableEq, Repr

def is_leap (y : ℤ) : Bool := (y % 4 == 0 && y % 100 != 0) || (y % 400 == 0)

def days_in_month (y m : ℤ) : ℤ :=
  if m = 2 then (if is_leap y then 29 else 28)
  else if m = 4 ∨ m = 6 ∨ m = 9 ∨ m = 11 then 30 else 31

def valid_civil (t : CivilDate) : Prop :=
  1 ≤ t.month ∧ t.month ≤ 12 ∧ 1 ≤ t.day ∧ t.day ≤ days_in_month t.year t.month

instance : DecidablePred valid_civil := fun t => by
  unfold valid_civil
  infer_instance

/-- Chronological (= lexicographic) order on civil dates. -/
def civil_le (a b : CivilDate) : Prop :=
  a.year < b.year ∨ (a.year = b.year ∧
    (a.month < b.month ∨ (a.month = b.month ∧ a.day ≤ b.day)))

instance : ∀ a b, Decidable (civil_le a b) := fun a b => by
  unfold civil_le
  infer_instance

/-- The month period of a date, as a month count. -/
def month_index (t : CivilDate) : ℤ := 12 * t.year + (t.month - 1)

/-- `resample('M')` bin label: the last calendar day of month period `i`. -/
def month_end_label (i : ℤ) : CivilDate :=
  ⟨i / 12, i % 12 + 1, days_in_month (i / 12) (i % 12 + 1)⟩

/-- `to_period('M').to_timestamp()`: the first calendar day of period `i`. -/
def month_start_label (i : ℤ) : CivilDate := ⟨i / 12, i % 12 + 1, 1⟩

/-- The week period of an epoch day (weeks run Monday through Sunday). -/
def week_index (n : ℤ) : ℤ := (n + 3) / 7

/-- `resample('W')` bin label: the Sunday ending week period `w`. -/
def week_end_label (w : ℤ) : ℤ := 7 * w + 3

/-- `to_period('W').to_timestamp()`: the Monday starting week period `w`. -/
def week_start_label (w : ℤ) : ℤ := 7 * w - 3

structure AggRow where
  date : CivilDate
  value : ℚ
deriving DecidableEq, Repr

structure GroupAggRow where
  date : CivilDate
  group : String
  value : ℚ
deriving DecidableEq, Repr

/-- Ungrouped monthly aggregation: `set_index('date').resample('M').agg(...)`
with the target summed per bin. -/
def aggregate_monthly (rows : List AggRow) : List (CivilDate × ℚ) :=
  match rows.map (fun r => month_index r.date) with
  | [] => []
  | i :: is =>
    (List.range ((is.foldr max i) - (is.foldr min i) + 1).toNat).map (fun k =>
      (month_end_label ((is.foldr min i) + k),
       ((rows.filter (fun r => month_index r.date = (is.foldr min i) + k)).map
          (fun r => r.value)).sum))

/-- Grouped monthly aggregation: `groupby(['period', group]).agg(...)` with
`date = period.dt.to_timestamp()`. -/
def aggregate_monthly_grouped (rows : List GroupAggRow) : List (CivilDate × String × ℚ) :=
  ((rows.map (fun r => (month_index r.date, r.group))).dedup).map (fun k =>
    (month_start_label k.1, k.2,
     ((rows.filter (fun r => month_index r.date = k.1 ∧ r.group = k.2)).map
        (fun r => r.value)).sum))

/-- Ungrouped weekly aggregation over epoch days. -/
def aggregate_weekly (rows : List (ℤ × ℚ)) : List (ℤ × ℚ) :=
  match rows.map (fun r => week_index r.1) with
  | [] => []
  | w :: ws =>
    (List.range ((ws.foldr max w) - (ws.foldr min w) + 1).toNat).map (fun k =>
      (week_end_label ((ws.foldr min w) + k),
       ((rows.filter (fun r => week_index r.1 = (ws.foldr min w) + k)).map
          (fun r => r.2)).sum))

/-- Grouped weekly aggregation over epoch days. -/
def aggregate_weekly_grouped (rows : List (ℤ × String × ℚ)) : List (ℤ × String × ℚ) :=
  ((rows.map (fun r => (week_index r.1, r.2.1))).dedup).map (fun k =>
    (week_start_label k.1, k.2,
     ((rows.filter (fun r => week_index r.1 = k.1 ∧ r.2.1 = k.2)).map
        (fun r => r.2.2)).sum))

/-- Ungrouped daily aggregation over epoch days: the bin label is the day. -/
def aggregate_daily (rows : List (ℤ × ℚ)) : List (ℤ × ℚ) :=
  match rows.map (fun r => r.1) with
  | [] => []
  | n :: ns =>
    (List.range ((ns.foldr max n) - (ns.foldr min n) + 1).toNat).map (fun k =>
      ((ns.foldr min n) + k,
       ((rows.filter (fun r => r.1 = (ns.foldr min n) + k)).map (fun r => r.2)).sum))

/-- Grouped daily aggregation over epoch days: the period label is the day. -/
def aggregate_daily_grouped (rows : List (ℤ × String × ℚ)) : List (ℤ × String × ℚ) :=
  ((rows.map (fun r => (r.1, r.2.1))).dedup).map (fun k =>
    (k.1, k.2,
     ((rows.filter (fun r => r.1 = k.1 ∧ r.2.1 = k.2)).map (fun r => r.2.2)).sum))

theorem days_in_month_pos (y m : ℤ) : 1 ≤ days_in_month y m := by
  unfold days_in_month
  split_ifs <;> norm_num

theorem month_index_month_end_label (i : ℤ) : month_index (month_end_label i) = i := by
  unfold month_index month_end_label
  simp only
  omega

theorem month_index_month_start_label (i : ℤ) : month_index (month_start_label i) = i := by
  unfold month_index month_start_label
  simp only
  omega

theorem valid_civil_month_end_label (i : ℤ) : valid_civil (month_end_label i) := by
  unfold valid_civil month_end_label
  dsimp only
  refine ⟨by omega, by omega, days_in_month_pos _ _, le_refl _⟩

theorem valid_civil_month_start_label (i : ℤ) : valid_civil (month_start_label i) := by
  unfold valid_civil month_start_label
  dsimp only
  refine ⟨by omega, by omega, le_refl _, days_in_month_pos _ _⟩

/-- Any valid date of month period `i` is at most the month-end label. -/
theorem civil_le_month_end_label (i : ℤ) (u : CivilDate) (hu : valid_civil u)
    (hidx : month_index u = i) : civil_le u (month_end_label i) := by
  obtain ⟨h1, h2, h3, h4⟩ := hu
  unfold month_index at hidx
  have hy : u.year = i / 12 := by omega
  have hm : u.month = i % 12 + 1 := by omega
  right
  refine ⟨hy, ?_⟩
  right
  refine ⟨hm, ?_⟩
  show u.day ≤ days_in_month (i / 12) (i % 12 + 1)
  rw [← hy, ← hm]
  exact h4

/-- Any valid date of month period `i` is at least the month-start label. -/
theorem month_start_label_civil_le (i : ℤ) (u : CivilDate) (hu : valid_civil u)
    (hidx : month_index u = i) : civil_le (month_start_label i) u := by
  obtain ⟨h1, h2, h3, h4⟩ := hu
  unfold month_index at hidx
  have hy : u.year = i / 12 := by omega
  have hm : u.month = i % 12 + 1 := by omega
  right
  refine ⟨hy.symm, ?_⟩
  right
  exact ⟨hm.symm, h3⟩

theorem week_index_week_end_label (w : ℤ) : week_index (week_end_label w) = w := by
  unfold week_index week_end_label
  omega

theorem week_index_week_start_label (w : ℤ) : week_index (week_start_label w) = w := by
  unfold week_index week_start_label
  omega

/-- Any epoch day of week period `w` is at most that week's Sunday. -/
theorem le_week_end_label (w m : ℤ) (h : week_index m = w) : m ≤ week_end_label w := by
  unfold week_index at h
  unfold week_end_label
  omega

/-- Any epoch day of week period `w` is at least that week's Monday. -/
theorem week_start_label_le (w m : ℤ) (h : week_index m = w) : week_start_label w ≤ m := by
  unfold week_index at h
  unfold week_start_label
  omega

/-- C6 (amended): in the *ungrouped* branch (`resample`) every output row's
date is the calendar period-end boundary of its bucket — the greatest date
in the bucket's period (the month end for monthly, the Sunday for weekly, the
day itself for daily).  In the *grouped* branch (`to_period(...).to_timestamp()`)
the output date is instead the period-*start* boundary — the least date of the
period (first of month, Monday, the day itself); for daily buckets start and
end coincide, so only there does the claimed period-end convention also hold
with grouping. -/
theorem C6_aggregate_bucket_labels :
    (∀ rows : List AggRow, ∀ p ∈ aggregate_monthly rows,
      valid_civil p.1 ∧
      ∀ u, valid_civil u → month_index u = month_index p.1 → civil_le u p.1) ∧
    (∀ rows : List (ℤ × ℚ), ∀ p ∈ aggregate_weekly rows,
      ∀ m : ℤ, week_index m = week_index p.1 → m ≤ p.1) ∧
    (∀ rows : List (ℤ × ℚ), ∀ p ∈ aggregate_daily rows,
      ∀ m : ℤ, m = p.1 → m ≤ p.1 ∧ p.1 ≤ m) ∧
    (∀ rows : List GroupAggRow, ∀ p ∈ aggregate_monthly_grouped rows,
      valid_civil p.1 ∧
      ∀ u, valid_civil u → month_index u = month_index p.1 → civil_le p.1 u) ∧
    (∀ rows : List (ℤ × String × ℚ), ∀ p ∈ aggregate_weekly_grouped rows,
      ∀ m : ℤ, week_index m = week_index p.1 → p.1 ≤ m) ∧
    (∀ rows : List (ℤ × String × ℚ), ∀ p ∈ aggregate_daily_grouped rows,
      ∀ m : ℤ, m = p.1 → m ≤ p.1 ∧ p.1 ≤ m) := by
  refine ⟨?_, ?_, ?_, ?_, ?_, ?_⟩
  · intro rows p hp
    unfold aggregate_monthly at hp
    split at hp
    · simp at hp
    · obtain ⟨k, _, rfl⟩ := List.mem_map.1 hp
      dsimp only
      constructor
      · exact valid_civil_month_end_label _
      · intro u hu he
        rw [month_index_month_end_label] at he
        exact civil_le_month_end_label _ u hu he
  · intro rows p hp
    unfold aggregate_weekly at hp
    split at hp
    · simp at hp
    · obtain ⟨k, _, rfl⟩ := List.mem_map.1 hp
      dsimp only
      intro m hm
      rw [week_index_week_end_label] at hm
      exact le_week_end_label _ m hm
  · intro rows p hp
    unfold aggregate_daily at hp
    split at hp
    · simp at hp
    · obtain ⟨k, _, rfl⟩ := List.mem_map.1 hp
      dsimp only
      intro m hm
      omega
  · intro rows p hp
    unfold aggregate_monthly_grouped at hp
    obtain ⟨k, _, rfl⟩ := List.mem_map.1 hp
    dsimp only
    constructor
    · exact valid_civil_month_start_label _
    · intro u hu he
      rw [month_index_month_start_label] at he
      exact month_start_label_civil_le _ u hu he
  · intro rows p hp
    unfold aggregate_weekly_grouped at hp
    obtain ⟨k, _, rfl⟩ := List.mem_map.1 hp
    dsimp only
    intro m hm
    rw [week_index_week_start_label] at hm
    exact week_start_label_le _ m hm
  · intro rows p hp
    unfold aggregate_daily_grouped at hp
    obtain ⟨k, _, rfl⟩ := List.mem_map.1 hp
    dsimp only
    intro m hm
    omega

/-- C6 witness: on the single observation 2024-01-15 (value 5, group `A`),
the ungrouped monthly label 2024-01-31 dominates the same-month date
2024-01-10, and the grouped monthly label 2024-01-01 precedes it. -/
theorem C6_aggregate_bucket_labels_witness :
    civil_le ⟨2024, 1, 10⟩ ⟨2024, 1, 31⟩ ∧ civil_le ⟨2024, 1, 1⟩ ⟨2024, 1, 10⟩ := by
  have hmem1 : ((⟨2024, 1, 31⟩ : CivilDate), (5 : ℚ))
      ∈ aggregate_monthly [⟨⟨2024, 1, 15⟩, 5⟩] := by
    simp [aggregate_monthly, month_index, month_end_label, days_in_month, is_leap]
    norm_num
  have hmem2 : ((⟨2024, 1, 1⟩ : CivilDate), ("A", (5 : ℚ)))
      ∈ aggregate_monthly_grouped [⟨⟨2024, 1, 15⟩, "A", 5⟩] := by
    simp [aggregate_monthly_grouped, month_index, month_start_label, List.dedup]
  constructor
  · exact (C6_aggregate_bucket_labels.1 [⟨⟨2024, 1, 15⟩, 5⟩] _ hmem1).2
      ⟨2024, 1, 10⟩ (by decide) (by decide)
  · exact (C6_aggregate_bucket_labels.2.2.2.1 [⟨⟨2024, 1, 15⟩, "A", 5⟩] _ hmem2).2
      ⟨2024, 1, 10⟩ (by decide) (by decide)

/-- C6 counterexample: with a group-by column, the single observation
2024-01-15 is labelled 2024-01-01 — the period *start* — although 2024-01-31
is a valid date of the same monthly bucket and is not ≤ 2024-01-01, so the
output date is not the period-end boundary of its bucket. -/
theorem C6_counterexample :
    ((⟨2024, 1, 1⟩ : CivilDate), ("A", (5 : ℚ)))
      ∈ aggregate_monthly_grouped [⟨⟨2024, 1, 15⟩, "A", 5⟩] ∧
    valid_civil ⟨2024, 1, 31⟩ ∧
    month_index ⟨2024, 1, 31⟩ = month_index ⟨2024, 1, 1⟩ ∧
    ¬ civil_le ⟨2024, 1, 31⟩ ⟨2024, 1, 1⟩ := by
  refine ⟨?_, by decide, by decide, by decide⟩
  simp [aggregate_monthly_grouped, month_index, month_start_label, List.dedup]
